import Mathlib

/-
Verification of the BitcoRise earning-bot core: the reward ledger, the
task-timer engine and the payout-request workflow, as implemented in
bot.py, bot_complete_vps.py and the unnamed API-client variant.
Money is modelled as rationals, timestamps as natural-number seconds and
calendar days as natural-number day indices.
-/

namespace Yotta

/-- A user record as stored in the users map of the VPS variants:
balance, total_earned, daily_earned, tasks_completed, referrals, and the
calendar day of last_activity (only the date of last_activity is ever
compared). -/
structure UserRec where
  balance : ℚ
  totalEarned : ℚ
  dailyEarned : ℚ
  tasksCompleted : ℕ
  referrals : ℕ
  lastActivityDay : ℕ
  deriving DecidableEq, Repr

/-- Status field of a payout request: pending, approved or rejected. -/
inductive ReqStatus
  | pending
  | approved
  | rejected
  deriving DecidableEq, Repr

/-- A payout request record exactly as stored by create_payout_request:
user id, username snapshot, amount, payment method, payment address,
status, created_at, processed_at and admin_note. -/
structure ReqRec where
  user_id : ℕ
  username : String
  amount : ℚ
  payment_method : String
  payment_address : String
  status : ReqStatus
  created_at : ℕ
  processed_at : Option ℕ
  admin_note : String
  deriving DecidableEq, Repr

/-- The global mutable state of bot_complete_vps.py: the users dict, the
payout_requests dict (kept as an insertion-ordered association list, the
semantics of a Python dict) and the per-user context.user_data holding
the chosen payout method and snapshotted payout amount. -/
structure BotState where
  users : ℕ → Option UserRec
  requests : List (ℕ × ReqRec)
  userData : ℕ → Option (String × ℚ)

/-- Point update of the users map. -/
def setUser (s : BotState) (uid : ℕ) (u : UserRec) : BotState :=
  { s with users := fun i => if i = uid then some u else s.users i }

/-- The zeroed record get_user creates on first contact. -/
def freshUser (today : ℕ) : UserRec :=
  ⟨0, 0, 0, 0, 0, today⟩

/-- get_user of bot_complete_vps.py: lazy upsert returning the user
record and the possibly-extended state. -/
def BotState.get_user (s : BotState) (uid today : ℕ) : UserRec × BotState :=
  match s.users uid with
  | some u => (u, s)
  | none => (freshUser today, setUser s uid (freshUser today))

/-- add_earnings of bot_complete_vps.py: adds the amount to balance,
total_earned and daily_earned, increments tasks_completed, and stamps
last_activity with the current day. -/
def add_earnings (s : BotState) (uid : ℕ) (amount : ℚ) (today : ℕ) : BotState :=
  let p := s.get_user uid today
  setUser p.2 uid
    { p.1 with
      balance := p.1.balance + amount
      totalEarned := p.1.totalEarned + amount
      dailyEarned := p.1.dailyEarned + amount
      tasksCompleted := p.1.tasksCompleted + 1
      lastActivityDay := today }

/-- can_earn_today of bot_complete_vps.py: if the last-activity day is
strictly before today it zeroes daily_earned in place, then reports
whether daily_earned is below the daily limit. Returns the flag and the
mutated state. -/
def can_earn_today (s : BotState) (uid today : ℕ) (dailyLimit : ℚ) : Bool × BotState :=
  let p := s.get_user uid today
  let u := if p.1.lastActivityDay < today then { p.1 with dailyEarned := 0 } else p.1
  (decide (u.dailyEarned < dailyLimit), setUser p.2 uid u)

/-- The referral branch of the start handler in bot_complete_vps.py:
when the referrer exists, increments the referrals counter and then
credits the referral bonus through add_earnings. -/
def credit_referral (s : BotState) (ruid : ℕ) (bonus : ℚ) (today : ℕ) : BotState :=
  match s.users ruid with
  | none => s
  | some u => add_earnings (setUser s ruid { u with referrals := u.referrals + 1 }) ruid bonus today

/-- Dict lookup in payout_requests. -/
def findReq (s : BotState) (reqId : ℕ) : Option ReqRec :=
  (s.requests.find? (fun p => decide (p.1 = reqId))).map Prod.snd

/-- Dict overwrite at an existing key. -/
def setReq (rs : List (ℕ × ReqRec)) (reqId : ℕ) (r : ReqRec) : List (ℕ × ReqRec) :=
  rs.map (fun p => if p.1 = reqId then (p.1, r) else p)

/-- create_payout_request of bot_complete_vps.py: stores a fresh pending
request under the generated id (Python dict assignment: overwrite on an
existing key, append otherwise). -/
def create_payout_request (s : BotState) (uid : ℕ) (username : String) (amount : ℚ)
    (method address : String) (reqId now : ℕ) : BotState :=
  let r : ReqRec := ⟨uid, username, amount, method, address, .pending, now, none, ""⟩
  { s with requests :=
      if (s.requests.find? (fun p => decide (p.1 = reqId))).isSome
      then setReq s.requests reqId r
      else s.requests ++ [(reqId, r)] }

/-- get_user_pending_requests of bot_complete_vps.py. -/
def pending_requests_for (s : BotState) (uid : ℕ) : List ReqRec :=
  (s.requests.map Prod.snd).filter
    (fun r => decide (r.user_id = uid ∧ r.status = ReqStatus.pending))

/-- Outcome of the payout menu button. -/
inductive MenuResult
  | pendingBlock
  | insufficient
  | showMethods
  deriving DecidableEq, Repr

/-- The payout branch of the button handler in bot_complete_vps.py: it
refuses when the user already has a pending request, refuses when the
balance is below the minimum, and otherwise shows the method buttons. -/
def press_payout (s : BotState) (uid today : ℕ) (minWithdraw : ℚ) : MenuResult × BotState :=
  let p := s.get_user uid today
  if pending_requests_for p.2 uid ≠ [] then (.pendingBlock, p.2)
  else if p.1.balance < minWithdraw then (.insufficient, p.2)
  else (.showMethods, p.2)

/-- The payout-method branch of the button handler in
bot_complete_vps.py: checks only the method minimum, then snapshots the
method and the CURRENT balance into context.user_data. There is no
pending-request check on this path. -/
def press_payout_method (s : BotState) (uid today : ℕ) (method : String) (minAmount : ℚ) :
    BotState :=
  let p := s.get_user uid today
  if p.1.balance < minAmount then p.2
  else { p.2 with userData := fun i => if i = uid then some (method, p.1.balance) else p.2.userData i }

/-- handle_payout_address of bot_complete_vps.py: with a method chosen
and an address of length at least 5, creates the pending request with
the snapshotted amount, then sets the user balance to 0.0 and clears the
user context. -/
def handle_payout_address (s : BotState) (uid : ℕ) (username address : String)
    (reqId now today : ℕ) : BotState :=
  match s.userData uid with
  | none => s
  | some md =>
    if address.length < 5 then s
    else
      let s1 := create_payout_request s uid username md.2 md.1 address reqId now
      let p := s1.get_user uid today
      let s3 := setUser p.2 uid { p.1 with balance := 0 }
      { s3 with userData := fun i => if i = uid then none else s3.userData i }

/-- Outcome of an admin approve or reject command. -/
inductive AdminResult
  | ok
  | notFound
  | notPending
  deriving DecidableEq, Repr

/-- The admin note written by admin_approve. -/
def approved_note (now : ℕ) : String :=
  "Approved by admin on " ++ toString now

/-- admin_approve of bot_complete_vps.py: not found and already-processed
requests are refused untouched; a pending request becomes approved with
processed_at and admin_note set. No balance movement. -/
def admin_approve (s : BotState) (reqId now : ℕ) : AdminResult × BotState :=
  match findReq s reqId with
  | none => (.notFound, s)
  | some req =>
    if req.status ≠ ReqStatus.pending then (.notPending, s)
    else
      let r := { req with status := ReqStatus.approved, processed_at := some now,
                          admin_note := approved_note now }
      (.ok, { s with requests := setReq s.requests reqId r })

/-- admin_reject of bot_complete_vps.py: a pending request becomes
rejected with processed_at and admin_note set, and the request amount is
added back to the balance of the user record obtained through get_user. -/
def admin_reject (s : BotState) (reqId : ℕ) (reason : String) (now today : ℕ) :
    AdminResult × BotState :=
  match findReq s reqId with
  | none => (.notFound, s)
  | some req =>
    if req.status ≠ ReqStatus.pending then (.notPending, s)
    else
      let r := { req with status := ReqStatus.rejected, processed_at := some now,
                          admin_note := reason }
      let s1 := { s with requests := setReq s.requests reqId r }
      let p := s1.get_user req.user_id today
      (.ok, setUser p.2 req.user_id { p.1 with balance := p.1.balance + req.amount })

/-- reject_payout of the first VPS variant in bot_complete_vps.py: a
pending request becomes rejected with processed_at and admin_note set,
and the balance is restored ONLY when the user id is present in the
users map; the status change happens either way. -/
def reject_payout (s : BotState) (reqId : ℕ) (reason : String) (now : ℕ) :
    AdminResult × BotState :=
  match findReq s reqId with
  | none => (.notFound, s)
  | some req =>
    if req.status ≠ ReqStatus.pending then (.notPending, s)
    else
      let r := { req with status := ReqStatus.rejected, processed_at := some now,
                          admin_note := reason }
      let s1 := { s with requests := setReq s.requests reqId r }
      match s1.users req.user_id with
      | none => (.ok, s1)
      | some u => (.ok, setUser s1 req.user_id { u with balance := u.balance + req.amount })

/-- The withdrawal branch of handle_message in bot.py: the amount must
reach the method minimum and must not exceed the balance, and then the
balance is decremented by the amount. -/
def withdraw_bot (s : BotState) (uid : ℕ) (amount minAmt : ℚ) : BotState :=
  match s.users uid with
  | none => s
  | some u =>
    if amount < minAmt then s
    else if u.balance < amount then s
    else setUser s uid { u with balance := u.balance - amount }

/-- State of the unnamed API-client variant (part_000): the users known
to the backend and the TaskManager active_tasks map from user id and
task key to the start time of the live attempt. -/
structure TMState where
  users : ℕ → Option UserRec
  attempts : ℕ → String → Option ℕ

/-- add_user_earnings of part_000: patches balance, totalEarned,
dailyEarned by the amount and tasksCompleted by 1. It does not touch
lastActivity. -/
def add_user_earnings (u : UserRec) (amount : ℚ) : UserRec :=
  { u with
    balance := u.balance + amount
    totalEarned := u.totalEarned + amount
    dailyEarned := u.dailyEarned + amount
    tasksCompleted := u.tasksCompleted + 1 }

/-- can_earn_today of part_000: if the day of lastActivity is strictly
before today the user is eligible outright; otherwise eligibility is
dailyEarned below the limit. This variant does not reset dailyEarned. -/
def can_earn_today_p0 (u : UserRec) (today : ℕ) (dailyLimit : ℚ) : Bool :=
  if u.lastActivityDay < today then true else decide (u.dailyEarned < dailyLimit)

/-- TaskManager.start_task of part_000: records the start time for the
(user, task key) pair. -/
def start_task (s : TMState) (uid : ℕ) (key : String) (now : ℕ) : TMState :=
  { s with attempts := fun i k => if i = uid ∧ k = key then some now else s.attempts i k }

/-- TaskManager.is_task_completed of part_000: false with no live
attempt, otherwise whether the elapsed time reached the wait. -/
def is_task_completed_tm (s : TMState) (uid : ℕ) (key : String) (wait now : ℕ) : Bool :=
  match s.attempts uid key with
  | none => false
  | some t => decide (wait ≤ now - t)

/-- TaskManager.get_remaining_time of part_000: 0 with no live attempt,
otherwise the wait minus the elapsed time, floored at 0 (natural-number
subtraction). -/
def get_remaining_time_tm (s : TMState) (uid : ℕ) (key : String) (wait now : ℕ) : ℕ :=
  match s.attempts uid key with
  | none => 0
  | some t => wait - (now - t)

/-- Outcome of handle_task_claim. -/
inductive ClaimResult
  | notStarted
  | stillWaiting (remaining : ℕ)
  | claimed
  | failed
  deriving DecidableEq, Repr

/-- handle_task_claim of part_000 for a task with the given wait and
reward: if the attempt is not completed, a positive remaining time means
a wait answer, a zero remaining time means a not-started answer; a
completed attempt credits the reward through add_user_earnings and then
removes the attempt. -/
def handle_task_claim (s : TMState) (uid : ℕ) (key : String) (wait : ℕ) (reward : ℚ)
    (now : ℕ) : ClaimResult × TMState :=
  if ¬ is_task_completed_tm s uid key wait now then
    let r := get_remaining_time_tm s uid key wait now
    if 0 < r then (.stillWaiting r, s) else (.notStarted, s)
  else
    match s.users uid with
    | none => (.failed, s)
    | some u =>
      (.claimed,
       { users := fun i => if i = uid then some (add_user_earnings u reward) else s.users i,
         attempts := fun i k => if i = uid ∧ k = key then none else s.attempts i k })

/-- get_remaining_time of bot.py: with NO live attempt it returns the
full required wait of the task; with a live attempt it returns the wait
minus the elapsed time, floored at 0. -/
def get_remaining_time_bot (attempts : ℕ → String → Option ℕ) (uid : ℕ) (key : String)
    (wait now : ℕ) : ℕ :=
  match attempts uid key with
  | none => wait
  | some t => wait - (now - t)

/-- get_remaining_time of bot_complete_vps.py: 0 with no live attempt,
otherwise the wait minus the elapsed time, floored at 0. -/
def get_remaining_time_vps (attempts : ℕ → String → Option ℕ) (uid : ℕ) (key : String)
    (wait now : ℕ) : ℕ :=
  match attempts uid key with
  | none => 0
  | some t => wait - (now - t)

/-- A bot.py user record: the balance and the list of task keys
completed today (bot.py has no per-task earning counters). -/
structure BotPyUser where
  balance : ℚ
  completed_tasks : List String
  deriving DecidableEq, Repr

/-- The bot.py state: the users dict and the nested user_tasks dict
from user id and task key to the start time of the live attempt. -/
structure BotPyState where
  users : ℕ → Option BotPyUser
  user_tasks : ℕ → String → Option ℕ

/-- The lazy user creation at the top of handle_callback in bot.py:
a missing user is inserted with balance 0 and no completed tasks. -/
def bot_ensure_user (s : BotPyState) (uid : ℕ) : BotPyState :=
  match s.users uid with
  | some _ => s
  | none => { s with users := fun i => if i = uid then some ⟨0, []⟩ else s.users i }

/-- is_task_completed of bot.py: false with no live attempt, otherwise
whether the elapsed time reached the required wait. -/
def is_task_completed_bot (attempts : ℕ → String → Option ℕ) (uid : ℕ) (key : String)
    (wait now : ℕ) : Bool :=
  match attempts uid key with
  | none => false
  | some t => decide (wait ≤ now - t)

/-- Outcome of the verify branch of handle_callback in bot.py. It has
no not-started outcome at all: every press that is not yet claimable
answers please-wait with the remaining time. -/
inductive VerifyResult
  | stillWaiting (remaining : ℕ)
  | rewarded
  deriving DecidableEq, Repr

/-- The verify branch of handle_callback in bot.py, on a fixed calendar
day: after the lazy user creation (so the fallback user arm below is
unreachable), a press that is not yet completed answers please-wait
with get_remaining_time — which is the FULL wait when no attempt
exists; a completed press appends the task key to completed_tasks,
credits the reward and deletes the attempt. -/
def handle_verify (s0 : BotPyState) (uid : ℕ) (key : String) (wait : ℕ) (reward : ℚ)
    (now : ℕ) : VerifyResult × BotPyState :=
  let s := bot_ensure_user s0 uid
  if ¬ is_task_completed_bot s.user_tasks uid key wait now then
    (.stillWaiting (get_remaining_time_bot s.user_tasks uid key wait now), s)
  else
    match s.users uid with
    | none => (.rewarded, s)
    | some u =>
      (.rewarded,
       { users := fun i => if i = uid then
           some ⟨u.balance + reward, u.completed_tasks ++ [key]⟩ else s.users i,
         user_tasks := fun i k => if i = uid ∧ k = key then none else s.user_tasks i k })

/-- Outcome of the task button (a callback whose data is a task key) in
the second VPS variant: the same button both starts and claims, and
there is no not-started error outcome. -/
inductive TaskButtonResult
  | dailyLimitBlock
  | completed
  | inProgress (remaining : ℕ)
  | started
  deriving DecidableEq, Repr

/-- The task branch of the button handler in bot_complete_vps.py: the
press first runs can_earn_today (which may reset daily_earned in
place); with a live attempt whose elapsed time reached the wait it
credits the reward through add_earnings and deletes the attempt; with a
live unfinished attempt it shows the remaining time; with NO live
attempt it starts the timer. The user_tasks timer dict is the separate
global map passed alongside the state. -/
def handle_task_button (s : BotState) (tasks : ℕ → String → Option ℕ) (uid : ℕ)
    (key : String) (wait : ℕ) (reward : ℚ) (now today : ℕ) (dailyLimit : ℚ) :
    TaskButtonResult × BotState × (ℕ → String → Option ℕ) :=
  let c := can_earn_today s uid today dailyLimit
  if c.1 = false then (.dailyLimitBlock, c.2, tasks)
  else
    match tasks uid key with
    | some t =>
      if wait ≤ now - t then
        (.completed, add_earnings c.2 uid reward today,
         fun i k => if i = uid ∧ k = key then none else tasks i k)
      else
        (.inProgress (wait - (now - t)), c.2, tasks)
    | none =>
      (.started, c.2, fun i k => if i = uid ∧ k = key then some now else tasks i k)

/-- One core operation of the VPS variants (plus the bot.py withdrawal),
with its time arguments: lazy user creation, a task-reward credit, a
referral credit, the payout-method button, the address message that
creates the payout request, admin approval, admin rejection (both VPS
reject variants) and the bot.py withdrawal. -/
inductive Op
  | create (uid today : ℕ)
  | earn (uid : ℕ) (amount : ℚ) (today : ℕ)
  | referral (ruid : ℕ) (bonus : ℚ) (today : ℕ)
  | payoutMethod (uid today : ℕ) (method : String) (minAmt : ℚ)
  | sendAddress (uid : ℕ) (username address : String) (reqId now today : ℕ)
  | approve (reqId now : ℕ)
  | reject (reqId : ℕ) (reason : String) (now today : ℕ)
  | rejectV1 (reqId : ℕ) (reason : String) (now : ℕ)
  | withdraw (uid : ℕ) (amount minAmt : ℚ)

/-- Interpretation of one operation on the bot state. -/
def step (s : BotState) : Op → BotState
  | .create uid today => (s.get_user uid today).2
  | .earn uid amount today => add_earnings s uid amount today
  | .referral ruid bonus today => credit_referral s ruid bonus today
  | .payoutMethod uid today method minAmt => press_payout_method s uid today method minAmt
  | .sendAddress uid username address reqId now today =>
      handle_payout_address s uid username address reqId now today
  | .approve reqId now => (admin_approve s reqId now).2
  | .reject reqId reason now today => (admin_reject s reqId reason now today).2
  | .rejectV1 reqId reason now => (reject_payout s reqId reason now).2
  | .withdraw uid amount minAmt => withdraw_bot s uid amount minAmt

/-- Running a sequence of operations. -/
def run (s : BotState) : List Op → BotState
  | [] => s
  | op :: ops => run (step s op) ops

/-- The non-negativity assumption of the spec: configured task rewards,
the referral bonus and requested withdrawal amounts are non-negative. -/
def Op.nonneg : Op → Prop
  | .earn _ a _ => 0 ≤ a
  | .referral _ b _ => 0 ≤ b
  | .withdraw _ a _ => 0 ≤ a
  | _ => True

/-- The ledger invariant: every stored balance, every stored request
amount and every snapshotted payout amount is non-negative. -/
def Good (s : BotState) : Prop :=
  (∀ uid u, s.users uid = some u → 0 ≤ u.balance) ∧
  (∀ p ∈ s.requests, 0 ≤ p.2.amount) ∧
  (∀ uid m a, s.userData uid = some (m, a) → 0 ≤ a)

/-- The empty initial state. -/
def initState : BotState :=
  ⟨fun _ => none, [], fun _ => none⟩

/-- Balance read-off, 0 for an absent user. -/
def balanceOf (s : BotState) (uid : ℕ) : ℚ :=
  match s.users uid with
  | none => 0
  | some u => u.balance

lemma good_setUser {s : BotState} {uid : ℕ} {u : UserRec} (h : Good s)
    (hb : 0 ≤ u.balance) : Good (setUser s uid u) := by
  refine ⟨?_, h.2.1, h.2.2⟩
  intro uid' u' hu'
  simp only [setUser] at hu'
  by_cases he : uid' = uid
  · rw [if_pos he] at hu'
    cases hu'
    exact hb
  · rw [if_neg he] at hu'
    exact h.1 uid' u' hu'

lemma good_get_user_state {s : BotState} (h : Good s) (uid today : ℕ) :
    Good (s.get_user uid today).2 := by
  rcases hu : s.users uid with _ | u
  · simp only [BotState.get_user, hu]
    exact good_setUser h (le_refl 0)
  · simp only [BotState.get_user, hu]
    exact h

lemma get_user_balance_nonneg {s : BotState} (h : Good s) (uid today : ℕ) :
    0 ≤ (s.get_user uid today).1.balance := by
  rcases hu : s.users uid with _ | u
  · simp only [BotState.get_user, hu]
    exact le_refl 0
  · simp only [BotState.get_user, hu]
    exact h.1 uid u hu

lemma good_add_earnings {s : BotState} (h : Good s) {amount : ℚ} (ha : 0 ≤ amount)
    (uid today : ℕ) : Good (add_earnings s uid amount today) := by
  unfold add_earnings
  exact good_setUser (good_get_user_state h uid today)
    (add_nonneg (get_user_balance_nonneg h uid today) ha)

lemma setReq_amount {rs : List (ℕ × ReqRec)} {r : ReqRec} (h : ∀ p ∈ rs, 0 ≤ p.2.amount)
    (hr : 0 ≤ r.amount) (reqId : ℕ) : ∀ p ∈ setReq rs reqId r, 0 ≤ p.2.amount := by
  intro p hp
  simp only [setReq, List.mem_map] at hp
  obtain ⟨q, hq, hpq⟩ := hp
  by_cases hk : q.1 = reqId
  · rw [if_pos hk] at hpq
    rw [← hpq]
    exact hr
  · rw [if_neg hk] at hpq
    rw [← hpq]
    exact h q hq

lemma findReq_amount {s : BotState} (h : Good s) {reqId : ℕ} {req : ReqRec}
    (hf : findReq s reqId = some req) : 0 ≤ req.amount := by
  unfold findReq at hf
  cases hfind : s.requests.find? (fun p => decide (p.1 = reqId)) with
  | none => rw [hfind] at hf; simp at hf
  | some p =>
    rw [hfind] at hf
    simp only [Option.map_some'] at hf
    cases hf
    exact h.2.1 p (List.mem_of_find?_eq_some hfind)

lemma good_clear_userData {s : BotState} (h : Good s) (uid : ℕ) :
    Good { s with userData := fun i => if i = uid then none else s.userData i } := by
  refine ⟨h.1, h.2.1, ?_⟩
  intro uid' m a hma
  simp only at hma
  by_cases he : uid' = uid
  · rw [if_pos he] at hma
    cases hma
  · rw [if_neg he] at hma
    exact h.2.2 uid' m a hma

lemma good_create_payout_request {s : BotState} (h : Good s) {amount : ℚ}
    (ha : 0 ≤ amount) (uid : ℕ) (username method address : String) (reqId now : ℕ) :
    Good (create_payout_request s uid username amount method address reqId now) := by
  refine ⟨h.1, ?_, h.2.2⟩
  simp only [create_payout_request]
  split
  · exact setReq_amount h.2.1 ha reqId
  · intro p hp
    rcases List.mem_append.1 hp with hp1 | hp2
    · exact h.2.1 p hp1
    · rcases List.mem_singleton.1 hp2 with rfl
      exact ha

lemma good_step {s : BotState} {op : Op} (h : Good s) (hop : op.nonneg) :
    Good (step s op) := by
  cases op with
  | create uid today => exact good_get_user_state h uid today
  | earn uid amount today => exact good_add_earnings h hop uid today
  | referral ruid bonus today =>
    rcases hu : s.users ruid with _ | u
    · simp only [step, credit_referral, hu]
      exact h
    · simp only [step, credit_referral, hu]
      refine good_add_earnings (good_setUser h ?_) hop ruid today
      exact h.1 ruid u hu
  | payoutMethod uid today method minAmt =>
    have hg := good_get_user_state h uid today
    have hb := get_user_balance_nonneg h uid today
    simp only [step, press_payout_method]
    split
    · exact hg
    · refine ⟨hg.1, hg.2.1, ?_⟩
      intro uid' m a hma
      simp only at hma
      by_cases he : uid' = uid
      · rw [if_pos he] at hma
        cases hma
        exact hb
      · rw [if_neg he] at hma
        exact hg.2.2 uid' m a hma
  | sendAddress uid username address reqId now today =>
    rcases hd : s.userData uid with _ | md
    · simp only [step, handle_payout_address, hd]
      exact h
    · obtain ⟨m, a⟩ := md
      have haa : 0 ≤ a := h.2.2 uid m a hd
      simp only [step, handle_payout_address, hd]
      split
      · exact h
      · have h1 := good_create_payout_request h haa uid username m address reqId now
        refine good_clear_userData (good_setUser (good_get_user_state h1 uid today) ?_) uid
        simp only
        exact le_refl 0
  | approve reqId now =>
    rcases hf : findReq s reqId with _ | req
    · simp only [step, admin_approve, hf]
      exact h
    · simp only [step, admin_approve, hf]
      split
      · exact h
      · refine ⟨h.1, setReq_amount h.2.1 ?_ reqId, h.2.2⟩
        show 0 ≤ req.amount
        exact findReq_amount h hf
  | reject reqId reason now today =>
    rcases hf : findReq s reqId with _ | req
    · simp only [step, admin_reject, hf]
      exact h
    · simp only [step, admin_reject, hf]
      split
      · exact h
      · have hra := findReq_amount h hf
        have h1 : Good { s with requests := (setReq s.requests reqId
            { req with status := ReqStatus.rejected, processed_at := some now,
                       admin_note := reason }) } := by
          refine ⟨h.1, setReq_amount h.2.1 ?_ reqId, h.2.2⟩
          exact hra
        refine good_setUser (good_get_user_state h1 req.user_id today) ?_
        exact add_nonneg (get_user_balance_nonneg h1 req.user_id today) hra
  | rejectV1 reqId reason now =>
    rcases hf : findReq s reqId with _ | req
    · simp only [step, reject_payout, hf]
      exact h
    · simp only [step, reject_payout, hf]
      split
      · exact h
      · have hra := findReq_amount h hf
        have h1 : Good { s with requests := (setReq s.requests reqId
            { req with status := ReqStatus.rejected, processed_at := some now,
                       admin_note := reason }) } := by
          refine ⟨h.1, setReq_amount h.2.1 ?_ reqId, h.2.2⟩
          exact hra
        rcases hu2 : s.users req.user_id with _ | u
        · simp only [hu2]
          exact h1
        · simp only [hu2]
          refine good_setUser h1 ?_
          exact add_nonneg (h1.1 req.user_id u hu2) hra
  | withdraw uid amount minAmt =>
    rcases hu : s.users uid with _ | u
    · simp only [step, withdraw_bot, hu]
      exact h
    · simp only [step, withdraw_bot, hu]
      split
      · exact h
      · split
        · exact h
        · rename_i hlt
          refine good_setUser h ?_
          simp only
          linarith [not_lt.1 hlt]

lemma good_init : Good initState := by
  refine ⟨?_, ?_, ?_⟩ <;> intro _ <;> simp [initState]

lemma good_run {s : BotState} (h : Good s) :
    ∀ ops : List Op, (∀ op ∈ ops, op.nonneg) → Good (run s ops)
  | [], _ => h
  | op :: ops, hops =>
    good_run (good_step h (hops op (List.mem_cons_self op ops))) ops
      (fun o ho => hops o (List.mem_cons_of_mem op ho))

/-- C1: starting from the empty state, after any sequence of core
operations (lazy user creation, task-reward credit, referral credit,
payout-request creation, payout approval, payout rejection in either VPS
variant, and the bot.py withdrawal) in which all credited amounts and
requested withdrawal amounts are non-negative, every stored user balance
is non-negative. Since the operation list is arbitrary, this holds after
each prefix, hence after each operation. -/
theorem balance_nonneg_invariant (ops : List Op) (h : ∀ op ∈ ops, op.nonneg) :
    ∀ uid u, (run initState ops).users uid = some u → 0 ≤ u.balance :=
  (good_run good_init ops h).1

/-- A concrete operation sequence exercising creation, earning, payout
request, rejection and withdrawal. -/
def demoOps : List Op :=
  [.create 1 0, .earn 1 2 0, .payoutMethod 1 0 "faucetpay" 1,
   .sendAddress 1 "alice" "addr@mail" 100 5 0, .reject 100 "bad address" 6 0,
   .withdraw 1 1 1]

theorem balance_nonneg_invariant_witness : 0 ≤ balanceOf (run initState demoOps) 1 := by
  have h := balance_nonneg_invariant demoOps (by
    intro op hop
    fin_cases hop <;> norm_num [Op.nonneg])
  unfold balanceOf
  cases hu : (run initState demoOps).users 1 with
  | none => norm_num
  | some u => exact h 1 u hu

lemma setUser_requests (s : BotState) (uid : ℕ) (u : UserRec) :
    (setUser s uid u).requests = s.requests := rfl

lemma get_user_requests (s : BotState) (uid today : ℕ) :
    (s.get_user uid today).2.requests = s.requests := by
  rcases hu : s.users uid with _ | u <;>
    simp [BotState.get_user, hu, setUser_requests]

lemma find_setReq_eq (rs : List (ℕ × ReqRec)) (k reqId : ℕ) (r : ReqRec) :
    (setReq rs k r).find? (fun p => decide (p.1 = reqId)) =
      (rs.find? (fun p => decide (p.1 = reqId))).map
        (fun p => if p.1 = k then (p.1, r) else p) := by
  unfold setReq
  rw [List.find?_map]
  have hp : ((fun p : ℕ × ReqRec => decide (p.1 = reqId)) ∘
      (fun p : ℕ × ReqRec => if p.1 = k then (p.1, r) else p)) =
      (fun p : ℕ × ReqRec => decide (p.1 = reqId)) := by
    funext p
    by_cases hk : p.1 = k <;> simp [hk, Function.comp]
  rw [hp]

lemma findReq_setReq_self {s : BotState} {reqId : ℕ} {req : ReqRec}
    (hf : findReq s reqId = some req) (r : ReqRec) :
    findReq { s with requests := setReq s.requests reqId r } reqId = some r := by
  unfold findReq at hf ⊢
  rw [show ({ s with requests := setReq s.requests reqId r } : BotState).requests =
    setReq s.requests reqId r from rfl, find_setReq_eq]
  cases hfind : s.requests.find? (fun p => decide (p.1 = reqId)) with
  | none => rw [hfind] at hf; simp at hf
  | some q =>
    have hq : q.1 = reqId := by simpa using List.find?_some hfind
    simp [hq]

lemma findReq_setReq_other {s : BotState} {k reqId : ℕ} (hne : k ≠ reqId) (r : ReqRec) :
    findReq { s with requests := setReq s.requests k r } reqId = findReq s reqId := by
  unfold findReq
  rw [show ({ s with requests := setReq s.requests k r } : BotState).requests =
    setReq s.requests k r from rfl, find_setReq_eq]
  cases hfind : s.requests.find? (fun p => decide (p.1 = reqId)) with
  | none => simp
  | some q =>
    have hq : q.1 = reqId := by simpa using List.find?_some hfind
    have hqk : ¬ q.1 = k := by rw [hq]; exact fun he => hne he.symm
    simp [hqk]

/-- A bot.py state with one zeroed user and no attempts. -/
def botPyDemo : BotPyState :=
  ⟨fun i => if i = 1 then some ⟨0, []⟩ else none, fun _ _ => none⟩

/-- A VPS state with one zeroed user, for the task-button flow. -/
def taskDemoState : BotState :=
  ⟨fun i => if i = 1 then some (freshUser 0) else none, [], fun _ => none⟩

/-- A live vps attempt for user 1 on the like task, started at time 0. -/
def vpsAttempts0 : ℕ → String → Option ℕ :=
  fun i k => if i = 1 ∧ k = "like" then some 0 else none

/-- The vps task-button press for user 1 at time 30 against the attempt
of vpsAttempts0: the successful claim. -/
def vpsClaimAtThirty : TaskButtonResult × BotState × (ℕ → String → Option ℕ) :=
  handle_task_button taskDemoState vpsAttempts0 1 "like" 30 (1/20) 30 0 5

/-- C2 counterexample: the claimed ordering fails on two of the three
cited flows. In bot.py, a claim press with no prior start answers
still-waiting carrying the FULL 30-second wait (the verify branch has
no not-started outcome). In bot_complete_vps, a claim press with no
live attempt silently STARTS the 30-second timer, and after a
successful claim a second immediate press starts the timer again —
neither flow ever yields a not-started error. -/
theorem claim_ordering_counterexample :
    (handle_verify botPyDemo 1 "like" 30 (1/20) 0).1 = VerifyResult.stillWaiting 30 ∧
    (handle_task_button taskDemoState (fun _ _ => none) 1 "like" 30 (1/20) 0 0 5).1 =
      TaskButtonResult.started ∧
    (handle_task_button taskDemoState (fun _ _ => none) 1 "like" 30 (1/20) 0 0 5).2.2
      1 "like" = some 0 ∧
    vpsClaimAtThirty.1 = TaskButtonResult.completed ∧
    (handle_task_button vpsClaimAtThirty.2.1 vpsClaimAtThirty.2.2 1 "like" 30 (1/20)
      30 0 5).1 = TaskButtonResult.started := by
  norm_num [handle_verify, botPyDemo, bot_ensure_user, is_task_completed_bot,
    get_remaining_time_bot, handle_task_button, taskDemoState, vpsAttempts0,
    vpsClaimAtThirty, can_earn_today, BotState.get_user, setUser, freshUser, add_earnings]

/-- C2 amended: only the part_000 variant implements the claimed
ordering: with no live attempt a claim answers not-started and changes
nothing; after start_task and before the wait has elapsed a claim
answers still-waiting with exactly the remaining seconds and changes
nothing; once the wait has elapsed a claim credits the reward exactly
once through add_user_earnings, removes the attempt, and an immediate
second claim answers not-started. In bot.py, a claim press with no live
attempt — which is also the situation right after a successful claim,
since that removed the attempt — answers still-waiting carrying the
FULL required wait, never a not-started error. In bot_complete_vps, a
claim press with no live attempt — likewise including right after a
successful claim — starts the timer anew instead of failing. -/
theorem claim_ordering (s : TMState) (uid : ℕ) (key : String) (wait : ℕ) (reward : ℚ)
    (u : UserRec) (t : ℕ)
    (hatt : s.attempts uid key = none) (huser : s.users uid = some u)
    (sb : BotPyState) (hb : sb.user_tasks uid key = none)
    (sv : BotState) (tasks : ℕ → String → Option ℕ) (htv : tasks uid key = none)
    (today : ℕ) (dailyLimit : ℚ)
    (hce : (can_earn_today sv uid today dailyLimit).1 = true) :
    (∀ now, handle_task_claim s uid key wait reward now = (ClaimResult.notStarted, s)) ∧
    (∀ now1, t ≤ now1 → now1 - t < wait →
      handle_task_claim (start_task s uid key t) uid key wait reward now1 =
        (ClaimResult.stillWaiting (wait - (now1 - t)), start_task s uid key t)) ∧
    (∀ now2, wait ≤ now2 - t →
      ∃ s2 : TMState,
        handle_task_claim (start_task s uid key t) uid key wait reward now2 =
          (ClaimResult.claimed, s2) ∧
        s2.users uid = some (add_user_earnings u reward) ∧
        s2.attempts uid key = none ∧
        handle_task_claim s2 uid key wait reward now2 = (ClaimResult.notStarted, s2)) ∧
    (∀ now, (handle_verify sb uid key wait reward now).1 =
      VerifyResult.stillWaiting wait) ∧
    (∀ now, (handle_task_button sv tasks uid key wait reward now today dailyLimit).1 =
        TaskButtonResult.started ∧
      (handle_task_button sv tasks uid key wait reward now today dailyLimit).2.2 uid key =
        some now) := by
  refine ⟨?_, ?_, ?_, ?_, ?_⟩
  · intro now
    simp [handle_task_claim, is_task_completed_tm, get_remaining_time_tm, hatt]
  · intro now1 ht hlt
    have h1 : ¬ wait ≤ now1 - t := by omega
    have h2 : 0 < wait - (now1 - t) := by omega
    simp [handle_task_claim, is_task_completed_tm, get_remaining_time_tm, start_task, h1, h2]
  · intro now2 hge
    refine ⟨⟨fun i => if i = uid then some (add_user_earnings u reward)
                      else (start_task s uid key t).users i,
             fun i k => if i = uid ∧ k = key then none
                        else (start_task s uid key t).attempts i k⟩, ?_, ?_, ?_, ?_⟩
    · simp [handle_task_claim, is_task_completed_tm, start_task, hge, huser]
    · simp
    · simp
    · simp [handle_task_claim, is_task_completed_tm, get_remaining_time_tm]
  · intro now
    have hbu : (bot_ensure_user sb uid).user_tasks = sb.user_tasks := by
      cases hsb : sb.users uid <;> simp [bot_ensure_user, hsb]
    simp [handle_verify, is_task_completed_bot, get_remaining_time_bot, hbu, hb]
  · intro now
    simp [handle_task_button, hce, htv]

/-- A task-manager state with one known user and no live attempt. -/
def tmDemo : TMState :=
  ⟨fun i => if i = 1 then some (freshUser 0) else none, fun _ _ => none⟩

theorem claim_ordering_witness :
    handle_task_claim tmDemo 1 "like" 30 (1/20) 0 = (ClaimResult.notStarted, tmDemo) ∧
    handle_task_claim (start_task tmDemo 1 "like" 0) 1 "like" 30 (1/20) 0 =
      (ClaimResult.stillWaiting 30, start_task tmDemo 1 "like" 0) ∧
    (handle_verify botPyDemo 1 "like" 30 (1/20) 0).1 = VerifyResult.stillWaiting 30 ∧
    (handle_task_button taskDemoState (fun _ _ => none) 1 "like" 30 (1/20) 0 0 5).1 =
      TaskButtonResult.started := by
  have h := claim_ordering tmDemo 1 "like" 30 (1/20) (freshUser 0) 0 rfl rfl
    botPyDemo rfl taskDemoState (fun _ _ => none) rfl 0 5
    (by norm_num [can_earn_today, BotState.get_user, taskDemoState, setUser, freshUser])
  exact ⟨h.1 0, h.2.1 0 (by norm_num) (by norm_num), h.2.2.2.1 0, (h.2.2.2.2 0).1⟩

/-- C3: the payout-request state machine of the second VPS variant:
approving or rejecting a request whose status is not pending answers
already-processed and leaves the whole state, hence every field of the
request, unchanged; a pending request transitions to approved with
processed_at and admin_note set, or to rejected with processed_at and
admin_note set, all other fields unchanged. Since approved and rejected
are not pending, both outcomes are terminal. -/
theorem payout_state_machine (s : BotState) (reqId : ℕ) (req : ReqRec)
    (now today : ℕ) (reason : String)
    (hf : findReq s reqId = some req) :
    (req.status ≠ ReqStatus.pending →
      admin_approve s reqId now = (AdminResult.notPending, s) ∧
      admin_reject s reqId reason now today = (AdminResult.notPending, s)) ∧
    (req.status = ReqStatus.pending →
      findReq (admin_approve s reqId now).2 reqId =
        some ({ req with status := ReqStatus.approved, processed_at := some now,
                         admin_note := approved_note now }) ∧
      findReq (admin_reject s reqId reason now today).2 reqId =
        some ({ req with status := ReqStatus.rejected, processed_at := some now,
                         admin_note := reason })) := by
  constructor
  · intro hns
    constructor
    · simp [admin_approve, hf, hns]
    · simp [admin_reject, hf, hns]
  · intro hp
    constructor
    · have hs : (admin_approve s reqId now).2 = { s with requests := (setReq s.requests reqId
          { req with status := ReqStatus.approved, processed_at := some now,
                     admin_note := approved_note now }) } := by
        simp [admin_approve, hf, hp]
      rw [hs]
      exact findReq_setReq_self hf _
    · have hs : (admin_reject s reqId reason now today).2.requests = (setReq s.requests reqId
          { req with status := ReqStatus.rejected, processed_at := some now,
                     admin_note := reason }) := by
        simp [admin_reject, hf, hp, setUser_requests, get_user_requests]
      have hfr : findReq (admin_reject s reqId reason now today).2 reqId =
          findReq { s with requests := (setReq s.requests reqId
            { req with status := ReqStatus.rejected, processed_at := some now,
                       admin_note := reason }) } reqId := by
        unfold findReq
        rw [hs]
      rw [hfr]
      exact findReq_setReq_self hf _

/-- A pending demonstration request. -/
def reqDemo : ReqRec :=
  ⟨1, "alice", 10, "faucetpay", "addr@mail", ReqStatus.pending, 0, none, ""⟩

/-- A state holding one user and one pending request. -/
def stDemo : BotState :=
  ⟨fun i => if i = 1 then some (freshUser 0) else none, [(100, reqDemo)], fun _ => none⟩

lemma findReq_congr {s s' : BotState} (hr : s'.requests = s.requests) (reqId : ℕ) :
    findReq s' reqId = findReq s reqId := by
  unfold findReq
  rw [hr]

lemma findReq_append_other {s : BotState} {reqId k : ℕ} (hne : k ≠ reqId) (r : ReqRec) :
    findReq { s with requests := s.requests ++ [(k, r)] } reqId = findReq s reqId := by
  unfold findReq
  rw [show ({ s with requests := s.requests ++ [(k, r)] } : BotState).requests =
    s.requests ++ [(k, r)] from rfl, List.find?_append]
  cases hfind : s.requests.find? (fun p => decide (p.1 = reqId)) with
  | some q => simp
  | none => simp [hne]

lemma findReq_create (s : BotState) (uid : ℕ) (username : String) (amount : ℚ)
    (method address : String) (reqId now : ℕ) :
    findReq (create_payout_request s uid username amount method address reqId now) reqId =
      some ⟨uid, username, amount, method, address, ReqStatus.pending, now, none, ""⟩ := by
  by_cases hc : (s.requests.find? (fun p => decide (p.1 = reqId))).isSome = true
  · obtain ⟨q, hq⟩ := Option.isSome_iff_exists.1 hc
    have hf : findReq s reqId = some q.2 := by
      unfold findReq
      rw [hq]
      rfl
    have hcr : create_payout_request s uid username amount method address reqId now =
        { s with requests := (setReq s.requests reqId
          ⟨uid, username, amount, method, address, ReqStatus.pending, now, none, ""⟩) } := by
      simp [create_payout_request, hc]
    rw [hcr]
    exact findReq_setReq_self hf _
  · have hcr : create_payout_request s uid username amount method address reqId now =
        { s with requests := s.requests ++
          [(reqId, ⟨uid, username, amount, method, address, ReqStatus.pending, now, none, ""⟩)] } := by
      simp [create_payout_request, hc]
    have hnone : s.requests.find? (fun p => decide (p.1 = reqId)) = none := by
      cases hfind : s.requests.find? (fun p => decide (p.1 = reqId)) with
      | none => rfl
      | some q => rw [hfind] at hc; simp at hc
    rw [hcr]
    unfold findReq
    rw [show ({ s with requests := s.requests ++
      [(reqId, ⟨uid, username, amount, method, address, ReqStatus.pending, now, none, ""⟩)] } :
      BotState).requests = s.requests ++
      [(reqId, ⟨uid, username, amount, method, address, ReqStatus.pending, now, none, ""⟩)] from
      rfl, List.find?_append, hnone]
    simp

lemma findReq_create_other {s : BotState} {reqId rid : ℕ} (hne : rid ≠ reqId)
    (uid : ℕ) (username : String) (amount : ℚ) (method address : String) (now : ℕ) :
    findReq (create_payout_request s uid username amount method address rid now) reqId =
      findReq s reqId := by
  by_cases hc : (s.requests.find? (fun p => decide (p.1 = rid))).isSome = true
  · have hcr : create_payout_request s uid username amount method address rid now =
        { s with requests := (setReq s.requests rid
          ⟨uid, username, amount, method, address, ReqStatus.pending, now, none, ""⟩) } := by
      simp [create_payout_request, hc]
    rw [hcr]
    exact findReq_setReq_other hne _
  · have hcr : create_payout_request s uid username amount method address rid now =
        { s with requests := s.requests ++
          [(rid, ⟨uid, username, amount, method, address, ReqStatus.pending, now, none, ""⟩)] } := by
      simp [create_payout_request, hc]
    rw [hcr]
    exact findReq_append_other hne _

lemma map_amount_setReq {s : BotState} {reqId k : ℕ} {a : ℚ} {req : ReqRec}
    (h : (findReq s reqId).map ReqRec.amount = some a)
    (hk : findReq s k = some req) (r : ReqRec) (hr : r.amount = req.amount) :
    (findReq { s with requests := setReq s.requests k r } reqId).map ReqRec.amount =
      some a := by
  by_cases he : k = reqId
  · subst he
    rw [findReq_setReq_self hk r]
    rw [hk] at h
    simp only [Option.map_some'] at h ⊢
    rw [hr, h]
  · rw [findReq_setReq_other he r]
    exact h

/-- The only operation that can disturb a stored request amount is the
address message creating a request under the same generated id. -/
def Op.usesReqId : Op → ℕ → Prop
  | .sendAddress _ _ _ rid _ _, reqId => rid = reqId
  | _, _ => False

lemma amount_preserved_step {s : BotState} {reqId : ℕ} {a : ℚ}
    (h : (findReq s reqId).map ReqRec.amount = some a) (op : Op)
    (hop : ¬ op.usesReqId reqId) :
    (findReq (step s op) reqId).map ReqRec.amount = some a := by
  cases op with
  | create uid today =>
    rw [show step s (Op.create uid today) = (s.get_user uid today).2 from rfl,
      findReq_congr (get_user_requests s uid today) reqId]
    exact h
  | earn uid amount today =>
    have hr : (add_earnings s uid amount today).requests = s.requests := by
      simp [add_earnings, setUser_requests, get_user_requests]
    rw [show step s (Op.earn uid amount today) = add_earnings s uid amount today from rfl,
      findReq_congr hr reqId]
    exact h
  | referral ruid bonus today =>
    have hr : (credit_referral s ruid bonus today).requests = s.requests := by
      rcases hu : s.users ruid with _ | u <;>
        simp [credit_referral, hu, add_earnings, setUser_requests, get_user_requests]
    rw [show step s (Op.referral ruid bonus today) = credit_referral s ruid bonus today from rfl,
      findReq_congr hr reqId]
    exact h
  | payoutMethod uid today method minAmt =>
    have hr : (press_payout_method s uid today method minAmt).requests = s.requests := by
      simp only [press_payout_method]
      split <;> simp [setUser_requests, get_user_requests]
    rw [show step s (Op.payoutMethod uid today method minAmt) =
      press_payout_method s uid today method minAmt from rfl, findReq_congr hr reqId]
    exact h
  | sendAddress uid username address rid now today =>
    have hne : rid ≠ reqId := hop
    simp only [step]
    rcases hd : s.userData uid with _ | md
    · simp only [handle_payout_address, hd]
      exact h
    · simp only [handle_payout_address, hd]
      split
      · exact h
      · have hcr := findReq_create_other (s := s) hne uid username md.2 md.1 address now
        simp only [findReq, setUser_requests, get_user_requests] at hcr h ⊢
        rw [hcr]
        exact h
  | approve rid now =>
    simp only [step]
    rcases hf : findReq s rid with _ | req
    · simp only [admin_approve, hf]
      exact h
    · simp only [admin_approve, hf]
      split
      · exact h
      · have h1 := map_amount_setReq h hf
          ({ req with status := ReqStatus.approved, processed_at := some now,
                      admin_note := approved_note now }) rfl
        simp only [findReq] at h1 ⊢
        exact h1
  | reject rid reason now today =>
    simp only [step]
    rcases hf : findReq s rid with _ | req
    · simp only [admin_reject, hf]
      exact h
    · simp only [admin_reject, hf]
      split
      · exact h
      · have h1 := map_amount_setReq h hf
          ({ req with status := ReqStatus.rejected, processed_at := some now,
                      admin_note := reason }) rfl
        simp only [findReq, setUser_requests, get_user_requests] at h1 ⊢
        exact h1
  | rejectV1 rid reason now =>
    simp only [step]
    rcases hf : findReq s rid with _ | req
    · simp only [reject_payout, hf]
      exact h
    · simp only [reject_payout, hf]
      split
      · exact h
      · have h1 := map_amount_setReq h hf
          ({ req with status := ReqStatus.rejected, processed_at := some now,
                      admin_note := reason }) rfl
        rcases hu2 : s.users req.user_id with _ | u
        · simp only [hu2]
          simp only [findReq] at h1 ⊢
          exact h1
        · simp only [hu2]
          simp only [findReq, setUser_requests] at h1 ⊢
          exact h1
  | withdraw uid amount minAmt =>
    have hr : (withdraw_bot s uid amount minAmt).requests = s.requests := by
      rcases hu : s.users uid with _ | u
      · simp [withdraw_bot, hu]
      · simp only [withdraw_bot, hu]
        split
        · rfl
        · split <;> simp [setUser_requests]
    rw [show step s (Op.withdraw uid amount minAmt) = withdraw_bot s uid amount minAmt from rfl,
      findReq_congr hr reqId]
    exact h

lemma amount_preserved_run {s : BotState} {reqId : ℕ} {a : ℚ}
    (h : (findReq s reqId).map ReqRec.amount = some a) :
    ∀ ops : List Op, (∀ op ∈ ops, ¬ op.usesReqId reqId) →
      (findReq (run s ops) reqId).map ReqRec.amount = some a
  | [], _ => h
  | op :: ops, hops =>
    amount_preserved_run
      (amount_preserved_step h op (hops op (List.mem_cons_self op ops))) ops
      (fun o ho => hops o (List.mem_cons_of_mem op ho))

/-- The operation prefix of the C4 counterexample: a user earns 10,
presses the payout-method button (snapshotting amount 10 into the user
context), and then earns 5 more before sending the address, so the
balance at submission time is 15. -/
def c4pre : List Op :=
  [Op.create 1 0, Op.earn 1 10 0, Op.payoutMethod 1 0 "faucetpay" 5, Op.earn 1 5 0]

/-- C4 counterexample: the request created by the address message stores
the snapshotted amount 10, yet the balance goes from 15 to 0, a
decrement of 15, not of the requested amount 10 (handle_payout_address
zeroes the balance instead of debiting the amount). -/
theorem createRequest_debit_counterexample :
    balanceOf (run initState c4pre) 1 = 15 ∧
    (findReq (run initState (c4pre ++ [Op.sendAddress 1 "alice" "addr@mail" 100 5 0])) 100).map
      ReqRec.amount = some 10 ∧
    balanceOf (run initState (c4pre ++ [Op.sendAddress 1 "alice" "addr@mail" 100 5 0])) 1 = 0 ∧
    balanceOf (run initState c4pre) 1 -
      balanceOf (run initState (c4pre ++ [Op.sendAddress 1 "alice" "addr@mail" 100 5 0])) 1 ≠
      (10 : ℚ) := by
  have hlen : ¬ ("addr@mail".length < 5) := by decide
  norm_num [c4pre, run, step, balanceOf, initState, BotState.get_user, setUser, freshUser,
    add_earnings, press_payout_method, handle_payout_address, create_payout_request,
    findReq, setReq, hlen]

/-- C4 amended: the address message sets the balance to 0 (so the
decrement equals the balance at submission time, which is the requested
amount only when the balance did not change after the method button),
stores the request as pending with the amount snapshotted at
method-selection time, and that stored amount then stays fixed under
every later operation that does not reuse the same generated request
id. -/
theorem createRequest_amount_fixed (s : BotState) (uid : ℕ) (m : String) (a : ℚ)
    (username address : String) (reqId now today : ℕ)
    (hud : s.userData uid = some (m, a)) (haddr : ¬ address.length < 5) :
    balanceOf (handle_payout_address s uid username address reqId now today) uid = 0 ∧
    findReq (handle_payout_address s uid username address reqId now today) reqId =
      some ⟨uid, username, a, m, address, ReqStatus.pending, now, none, ""⟩ ∧
    (∀ ops : List Op, (∀ op ∈ ops, ¬ op.usesReqId reqId) →
      (findReq (run (handle_payout_address s uid username address reqId now today) ops)
        reqId).map ReqRec.amount = some a) := by
  have hb : balanceOf (handle_payout_address s uid username address reqId now today) uid = 0 := by
    simp [handle_payout_address, hud, haddr, balanceOf, setUser]
  have hfr : findReq (handle_payout_address s uid username address reqId now today) reqId =
      some ⟨uid, username, a, m, address, ReqStatus.pending, now, none, ""⟩ := by
    have hc := findReq_create (s := s) uid username a m address reqId now
    simp only [handle_payout_address, hud, haddr, if_neg haddr]
    simp only [findReq, setUser_requests, get_user_requests] at hc ⊢
    exact hc
  refine ⟨hb, hfr, ?_⟩
  intro ops hops
  refine amount_preserved_run ?_ ops hops
  rw [hfr]
  rfl

theorem createRequest_amount_fixed_witness :
    balanceOf (handle_payout_address (run initState c4pre) 1 "alice" "addr@mail" 100 5 0) 1 =
      0 ∧
    findReq (handle_payout_address (run initState c4pre) 1 "alice" "addr@mail" 100 5 0) 100 =
      some ⟨1, "alice", 10, "faucetpay", "addr@mail", ReqStatus.pending, 5, none, ""⟩ := by
  have h := createRequest_amount_fixed (run initState c4pre) 1 "faucetpay" 10 "alice"
    "addr@mail" 100 5 0
    (by norm_num [c4pre, run, step, initState, BotState.get_user, setUser, freshUser,
      add_earnings, press_payout_method])
    (by decide)
  exact ⟨h.1, h.2.1⟩

theorem payout_state_machine_witness :
    findReq (admin_approve stDemo 100 7).2 100 =
      some ({ reqDemo with status := ReqStatus.approved, processed_at := some 7,
                           admin_note := approved_note 7 }) := by
  have h := payout_state_machine stDemo 100 reqDemo 7 0 "r" (by rfl)
  exact (h.2 rfl).1

/-- The C5 trace: a user earns 10 and submits a payout request (which
zeroes the balance), then earns 6 more and, pressing an old
payout-method button directly (the path without the pending-request
check), submits a second address, creating a second pending request. -/
def c5ops : List Op :=
  [Op.create 1 0, Op.earn 1 10 0,
   Op.payoutMethod 1 0 "faucetpay" 5,
   Op.sendAddress 1 "alice" "addr1@mail" 100 5 0,
   Op.earn 1 6 0,
   Op.payoutMethod 1 0 "faucetpay" 5,
   Op.sendAddress 1 "alice" "addr2@mail" 101 9 0]

/-- C5: the pending-request check lives only in the payout-menu branch:
after the first request is pending the menu answers pending-block, yet
the payout-method button plus the address message create a second
request, leaving the user with two pending requests at once. -/
theorem double_pending_request :
    (press_payout (run initState (c5ops.take 5)) 1 0 5).1 = MenuResult.pendingBlock ∧
    (pending_requests_for (run initState c5ops) 1).length = 2 := by
  have h1 : ¬ ("addr1@mail".length < 5) := by decide
  have h2 : ¬ ("addr2@mail".length < 5) := by decide
  norm_num [c5ops, run, step, initState, BotState.get_user, setUser, freshUser, add_earnings,
    press_payout_method, handle_payout_address, create_payout_request, findReq, setReq,
    press_payout, pending_requests_for, h1, h2, List.take]

/-- C6: rejecting a pending payout request through admin_reject replaces
the requesting user record by the same record with only the balance
increased by the request amount: totalEarned, dailyEarned,
tasksCompleted, referrals and the activity day are unchanged. -/
theorem reject_restores_balance_only (s : BotState) (reqId : ℕ) (req : ReqRec) (u : UserRec)
    (reason : String) (now today : ℕ)
    (hf : findReq s reqId = some req) (hp : req.status = ReqStatus.pending)
    (hu : s.users req.user_id = some u) :
    (admin_reject s reqId reason now today).2.users req.user_id =
      some ({ u with balance := u.balance + req.amount }) := by
  simp [admin_reject, hf, hp, BotState.get_user, hu, setUser]

theorem reject_restores_balance_only_witness :
    (admin_reject stDemo 100 "bad" 7 0).2.users 1 =
      some ({ freshUser 0 with balance := 0 + 10 }) := by
  have h := reject_restores_balance_only stDemo 100 reqDemo (freshUser 0) "bad" 7 0
    rfl rfl rfl
  exact h

/-- A state holding exactly one zeroed referrer. -/
def refState : BotState :=
  ⟨fun i => if i = 1 then some (freshUser 0) else none, [], fun _ => none⟩

/-- C7: the referral branch calls add_earnings, which unconditionally
increments tasks_completed, so crediting a referral bonus of 1 to a
referrer with all counters zero yields balance 1, totalEarned 1,
dailyEarned 1, referrals 1 and tasksCompleted 1 — not the 0 the spec
requires of a referral credit. -/
theorem referral_increments_tasksCompleted :
    (credit_referral refState 1 1 0).users 1 = some ⟨1, 1, 1, 1, 1, 0⟩ := by
  norm_num [credit_referral, refState, add_earnings, BotState.get_user, setUser, freshUser]

/-- C8 counterexample: in the part_000 variant, a user with dailyEarned
2 whose last activity day 4 precedes today 5 passes can_earn_today_p0,
but the next credit of 1 leaves dailyEarned 2 + 1 = 3, not 1: this
variant never resets the stale dailyEarned. -/
theorem daily_reset_counterexample :
    can_earn_today_p0 ⟨0, 0, 2, 0, 0, 4⟩ 5 5 = true ∧
    (add_user_earnings ⟨0, 0, 2, 0, 0, 4⟩ 1).dailyEarned = 3 ∧
    (add_user_earnings ⟨0, 0, 2, 0, 0, 4⟩ 1).dailyEarned ≠ 1 := by
  norm_num [can_earn_today_p0, add_user_earnings]

/-- C8 amended: in bot_complete_vps, for a user whose last-activity day
strictly precedes today and a positive daily limit, can_earn_today
returns true whatever the stored dailyEarned and zeroes it in place, so
the next add_earnings leaves dailyEarned equal to exactly the credited
amount; in the part_000 variant can_earn_today_p0 also returns true,
but add_user_earnings leaves dailyEarned equal to the stale value plus
the amount. -/
theorem daily_reset_amended (s : BotState) (uid today : ℕ) (dailyLimit : ℚ) (u : UserRec)
    (a : ℚ) (v : UserRec) (hu : s.users uid = some u) (hday : u.lastActivityDay < today)
    (hlim : 0 < dailyLimit) (hv : v.lastActivityDay < today) :
    (can_earn_today s uid today dailyLimit).1 = true ∧
    ((add_earnings (can_earn_today s uid today dailyLimit).2 uid a today).users uid).map
      UserRec.dailyEarned = some a ∧
    can_earn_today_p0 v today dailyLimit = true ∧
    (add_user_earnings v a).dailyEarned = v.dailyEarned + a := by
  refine ⟨?_, ?_, ?_, ?_⟩
  · simp [can_earn_today, BotState.get_user, hu, hday, hlim]
  · simp [can_earn_today, BotState.get_user, hu, hday, hlim, add_earnings, setUser]
  · simp [can_earn_today_p0, hv]
  · simp [add_user_earnings]

/-- A state holding one user with stale dailyEarned 2 from day 4. -/
def dayDemo : BotState :=
  ⟨fun i => if i = 1 then some ⟨0, 0, 2, 0, 0, 4⟩ else none, [], fun _ => none⟩

theorem daily_reset_amended_witness :
    (can_earn_today dayDemo 1 5 5).1 = true ∧
    ((add_earnings (can_earn_today dayDemo 1 5 5).2 1 1 5).users 1).map
      UserRec.dailyEarned = some 1 := by
  have h := daily_reset_amended dayDemo 1 5 5 ⟨0, 0, 2, 0, 0, 4⟩ 1 ⟨0, 0, 2, 0, 0, 4⟩
    rfl (by norm_num) (by norm_num) (by norm_num)
  exact ⟨h.1, h.2.1⟩

/-- C9 counterexample: in bot.py, with no live attempt for the pair,
get_remaining_time returns the full required wait of the task (here 30),
not the 0 the claim states. -/
theorem remaining_time_counterexample :
    get_remaining_time_bot (fun _ _ => none) 1 "like" 30 0 = 30 ∧
    get_remaining_time_bot (fun _ _ => none) 1 "like" 30 0 ≠ 0 := by
  norm_num [get_remaining_time_bot]

/-- C9 amended: with no live attempt the bot_complete_vps and part_000
variants return 0 while bot.py returns the full required wait; with a
live attempt started at t no later than now, all three variants agree
and return the integer max(0, requiredWait − elapsed). -/
theorem remaining_time_amended (attempts : ℕ → String → Option ℕ) (uid : ℕ) (key : String)
    (wait now t : ℕ) :
    (attempts uid key = none →
      get_remaining_time_vps attempts uid key wait now = 0 ∧
      get_remaining_time_tm ⟨fun _ => none, attempts⟩ uid key wait now = 0 ∧
      get_remaining_time_bot attempts uid key wait now = wait) ∧
    (attempts uid key = some t → t ≤ now →
      ((get_remaining_time_vps attempts uid key wait now : ℤ) =
        max 0 ((wait : ℤ) - ((now : ℤ) - (t : ℤ))) ∧
       get_remaining_time_tm ⟨fun _ => none, attempts⟩ uid key wait now =
         get_remaining_time_vps attempts uid key wait now ∧
       get_remaining_time_bot attempts uid key wait now =
         get_remaining_time_vps attempts uid key wait now)) := by
  constructor
  · intro hn
    simp [get_remaining_time_vps, get_remaining_time_tm, get_remaining_time_bot, hn]
  · intro hs ht
    refine ⟨?_, ?_, ?_⟩
    · simp only [get_remaining_time_vps, hs]
      omega
    · simp [get_remaining_time_tm, get_remaining_time_vps, hs]
    · simp [get_remaining_time_bot, get_remaining_time_vps, hs]

theorem remaining_time_amended_witness :
    get_remaining_time_vps (fun _ _ => none) 1 "like" 30 0 = 0 ∧
    get_remaining_time_bot (fun _ _ => none) 1 "like" 30 0 = 30 := by
  have h := remaining_time_amended (fun _ _ => none) 1 "like" 30 0 0
  exact ⟨(h.1 rfl).1, (h.1 rfl).2.2⟩

/-- C10: in the first VPS variant, rejecting a pending request whose
user id has no record in the users map still answers ok and marks the
request rejected with processed_at and admin_note set, while the users
map is untouched: the balance restore is conditional on the user record
existing, the status change is not. -/
theorem rejectV1_missing_user (s : BotState) (reqId : ℕ) (req : ReqRec)
    (reason : String) (now : ℕ)
    (hf : findReq s reqId = some req) (hp : req.status = ReqStatus.pending)
    (hu : s.users req.user_id = none) :
    (reject_payout s reqId reason now).1 = AdminResult.ok ∧
    findReq (reject_payout s reqId reason now).2 reqId =
      some ({ req with status := ReqStatus.rejected, processed_at := some now,
                       admin_note := reason }) ∧
    (reject_payout s reqId reason now).2.users = s.users := by
  have hs : reject_payout s reqId reason now = (AdminResult.ok,
      { s with requests := (setReq s.requests reqId
        { req with status := ReqStatus.rejected, processed_at := some now,
                   admin_note := reason }) }) := by
    simp [reject_payout, hf, hp, hu]
  rw [hs]
  exact ⟨rfl, findReq_setReq_self hf _, rfl⟩

/-- A state with a pending request whose user id 1 has no record. -/
def orphanState : BotState :=
  ⟨fun _ => none, [(200, reqDemo)], fun _ => none⟩

theorem rejectV1_missing_user_witness :
    (reject_payout orphanState 200 "bad" 7).1 = AdminResult.ok ∧
    (reject_payout orphanState 200 "bad" 7).2.users = orphanState.users := by
  have h := rejectV1_missing_user orphanState 200 reqDemo "bad" 7 rfl rfl rfl
  exact ⟨h.1, h.2.2⟩

end Yotta
